import Mathlib

/-!
Verification of the typed-AST projection layer (`crates/rslint_parser/src/ast.rs`) and the
continue-statement format-IR routine (`crates/formatter/src/ts/statements/continue_statement.rs`)
of the rome/tools-style repository.

The CST (rowan-style syntax tree) is an external collaborator: nodes and tokens are modelled
with their kind, children, and the trimmed text/range the tree exposes as queries.
-/

/-- A text range in the source file, as exposed by the CST library. -/
structure TextRange where
  start : Nat
  stop : Nat
deriving DecidableEq, Repr

/-- SyntaxKind: a closed enumeration identifying grammar productions and token types.
The enumeration itself lives in the (external) parser crate; we model it as a tagged code,
with the named kinds the claims mention as distinguished constants. -/
structure SyntaxKind where
  code : Nat
deriving DecidableEq, Repr

def SyntaxKind.LIST : SyntaxKind := ⟨0⟩

def SyntaxKind.IDENT : SyntaxKind := ⟨1⟩

def SyntaxKind.CONTINUE_KW : SyntaxKind := ⟨2⟩

def SyntaxKind.SEMICOLON : SyntaxKind := ⟨3⟩

def SyntaxKind.CONTINUE_STMT : SyntaxKind := ⟨4⟩

def SyntaxKind.IDENTIFIER : SyntaxKind := ⟨5⟩

def SyntaxKind.KEYWORD : SyntaxKind := ⟨6⟩

def SyntaxKind.ERROR : SyntaxKind := ⟨7⟩

def SyntaxKind.NAME : SyntaxKind := ⟨8⟩

/-- A CST token: a leaf with a kind, literal text and a text range. -/
structure SyntaxToken where
  kind : SyntaxKind
  text : String
  range : TextRange
deriving DecidableEq, Repr

/-- A CST node: kind-tagged, owning interleaved node/token children; the tree also answers
trimmed-text and trimmed-range queries (trivia stripped), which we carry as data. -/
inductive SyntaxNode : Type where
  | mk (kind : SyntaxKind) (childrenWithTokens : List (SyntaxNode ⊕ SyntaxToken))
      (trimmedText : String) (trimmedRange : TextRange) : SyntaxNode

/-- A child entry of a node: either a node or a token (rowan's SyntaxElement). -/
abbrev SyntaxElement := SyntaxNode ⊕ SyntaxToken

def SyntaxNode.kind : SyntaxNode → SyntaxKind
  | .mk k _ _ _ => k

def SyntaxNode.children_with_tokens : SyntaxNode → List SyntaxElement
  | .mk _ c _ _ => c

def SyntaxNode.trimmed_text : SyntaxNode → String
  | .mk _ _ t _ => t

def SyntaxNode.trimmed_range : SyntaxNode → TextRange
  | .mk _ _ _ r => r

/-- SyntaxElement::into_token: present exactly on token entries. -/
def SyntaxElement.into_token : SyntaxElement → Option SyntaxToken
  | Sum.inl _ => none
  | Sum.inr t => some t

/-- node.children(): the direct child nodes, in source order (tokens skipped), as rowan's
`children` iterator yields them. -/
def SyntaxNode.children (n : SyntaxNode) : List SyntaxNode :=
  n.children_with_tokens.filterMap (fun e =>
    match e with
    | Sum.inl child => some child
    | Sum.inr _ => none)

/-- A typed AST node view: same representation as the untyped node (a wrapper holding the
node), tagged by the `can_cast` predicate of its grammar production. -/
structure TypedNode (p : SyntaxKind → Bool) where
  syn : SyntaxNode

/-- AstNode::can_cast: the pure kind predicate of the production. -/
def AstNode.can_cast (p : SyntaxKind → Bool) (kind : SyntaxKind) : Bool := p kind

/-- Modelled from the spec: the generated per-production `AstNode::cast` impls
(`ast/generated/nodes.rs`) are not under src/; per the spec, cast returns present iff
`can_cast` holds for the argument's kind, wrapping the same node (zero-cost view). -/
def AstNode.cast (p : SyntaxKind → Bool) (s : SyntaxNode) : Option (TypedNode p) :=
  if p s.kind then some ⟨s⟩ else none

/-- AstNode::text default method: the wrapped node's trimmed text. -/
def TypedNode.text {p : SyntaxKind → Bool} (self : TypedNode p) : String :=
  self.syn.trimmed_text

/-- AstNode::range default method: the wrapped node's trimmed range. -/
def TypedNode.range {p : SyntaxKind → Bool} (self : TypedNode p) : TextRange :=
  self.syn.trimmed_range

/-- A typed AST token view, tagged by its `can_cast` predicate. -/
structure TypedToken (p : SyntaxKind → Bool) where
  syn : SyntaxToken

/-- AstToken::can_cast: the pure kind predicate of the token type. -/
def AstToken.can_cast (p : SyntaxKind → Bool) (kind : SyntaxKind) : Bool := p kind

/-- Modelled from the spec: the generated per-kind `AstToken::cast` impls
(`ast/generated/tokens.rs`) are not under src/; present iff `can_cast` holds for the token's
kind, wrapping the same token. -/
def AstToken.cast (p : SyntaxKind → Bool) (t : SyntaxToken) : Option (TypedToken p) :=
  if p t.kind then some ⟨t⟩ else none

/-- AstToken::text default method: the wrapped token's text. -/
def TypedToken.text {p : SyntaxKind → Bool} (self : TypedToken p) : String :=
  self.syn.text

/-- One mutating step of a Rust iterator's `find_map f`: scans the remaining elements, and on
the first hit returns it together with the elements left after it. -/
def iterFindMap {α β : Type} (f : α → Option β) : List α → Option (β × List α)
  | [] => none
  | x :: xs =>
    match f x with
    | some b => some (b, xs)
    | none => iterFindMap f xs

/-- AstChildren<N>: an iterator over the child nodes of a particular AST type; holds the
remaining `SyntaxNodeChildren` elements. -/
structure AstChildren (p : SyntaxKind → Bool) where
  inner : List SyntaxNode

def AstChildren.new (p : SyntaxKind → Bool) (parent : SyntaxNode) : AstChildren p :=
  ⟨parent.children⟩

def AstChildren.new_from_children (p : SyntaxKind → Bool) (children : List SyntaxNode) :
    AstChildren p :=
  ⟨children⟩

/-- Iterator::next for AstChildren: `self.inner.find_map(N::cast)`, advancing the inner
iterator past the found element. -/
def AstChildren.next {p : SyntaxKind → Bool} (it : AstChildren p) :
    Option (TypedNode p × AstChildren p) :=
  (iterFindMap (AstNode.cast p) it.inner).map (fun r => (r.1, ⟨r.2⟩))

/-- Running a `find_map`-stepped iterator to exhaustion (the sequence of all elements the
iterator yields before returning none). -/
def iterExhaust {α β : Type} (f : α → Option β) (l : List α) : List β :=
  match h : iterFindMap f l with
  | none => []
  | some r => r.1 :: iterExhaust f r.2
termination_by l.length
decreasing_by
  have step : ∀ (m : List α) (r : β × List α),
      iterFindMap f m = some r → r.2.length < m.length := by
    intro m
    induction m with
    | nil => intro r hr; simp [iterFindMap] at hr
    | cons x xs ih =>
      intro r hr
      simp only [iterFindMap] at hr
      cases hx : f x with
      | some v =>
        rw [hx] at hr
        cases hr
        simp
      | none =>
        rw [hx] at hr
        exact Nat.lt_trans (ih r hr) (by simp)
  exact step l r h

/-- All elements an AstChildren iterator yields, in order. -/
def AstChildren.exhaust {p : SyntaxKind → Bool} (it : AstChildren p) : List (TypedNode p) :=
  iterExhaust (AstNode.cast p) it.inner

/-- Iterator::last for AstChildren (consumes the iterator, returns the final yield). -/
def AstChildren.last {p : SyntaxKind → Bool} (it : AstChildren p) : Option (TypedNode p) :=
  it.exhaust.getLast?

/-- Modelled from the spec: SyntaxList (in the parser crate's syntax_node module, not under
src/) wraps a designated list-grouping node; length, emptiness, text and range are those of
the wrapped node's entries, and iteration walks its child nodes. -/
structure SyntaxList where
  node : SyntaxNode

def SyntaxList.new (parent : SyntaxNode) : SyntaxList := ⟨parent⟩

def SyntaxList.iter (self : SyntaxList) : List SyntaxNode := self.node.children

def SyntaxList.len (self : SyntaxList) : Nat := self.node.children.length

def SyntaxList.is_empty (self : SyntaxList) : Bool := self.node.children.isEmpty

def SyntaxList.text (self : SyntaxList) : String := self.node.trimmed_text

def SyntaxList.text_range (self : SyntaxList) : TextRange := self.node.trimmed_range

/-- AstNodeList<N>: typed wrapper around a list-grouping CST node. -/
structure AstNodeList (p : SyntaxKind → Bool) where
  inner : SyntaxList

def AstNodeList.new (p : SyntaxKind → Bool) (parent : SyntaxNode) : AstNodeList p :=
  ⟨SyntaxList.new parent⟩

def AstNodeList.iter {p : SyntaxKind → Bool} (self : AstNodeList p) : AstChildren p :=
  AstChildren.new_from_children p self.inner.iter

def AstNodeList.len {p : SyntaxKind → Bool} (self : AstNodeList p) : Nat :=
  self.inner.len

def AstNodeList.first {p : SyntaxKind → Bool} (self : AstNodeList p) : Option (TypedNode p) :=
  (self.iter.next).map Prod.fst

def AstNodeList.last {p : SyntaxKind → Bool} (self : AstNodeList p) : Option (TypedNode p) :=
  self.iter.last

def AstNodeList.is_empty {p : SyntaxKind → Bool} (self : AstNodeList p) : Bool :=
  self.inner.is_empty

def AstNodeList.text {p : SyntaxKind → Bool} (self : AstNodeList p) : String :=
  self.inner.text

def AstNodeList.text_range {p : SyntaxKind → Bool} (self : AstNodeList p) : TextRange :=
  self.inner.text_range

/-- support::child: `parent.children().find_map(N::cast)`. -/
def support.child (p : SyntaxKind → Bool) (parent : SyntaxNode) : Option (TypedNode p) :=
  List.findSome? (AstNode.cast p) parent.children

/-- support::children: a fresh AstChildren over the parent's child nodes. -/
def support.children (p : SyntaxKind → Bool) (parent : SyntaxNode) : AstChildren p :=
  AstChildren.new p parent

/-- support::list: finds the child of kind LIST and wraps it; the `.expect("Expected a node
list.")` panic on a missing LIST child is modelled as `none` (the sole aborting operation of
the projection layer). -/
def support.list (p : SyntaxKind → Bool) (parent : SyntaxNode) : Option (AstNodeList p) :=
  (parent.children.find? (fun e => decide (e.kind = SyntaxKind.LIST))).map
    (fun l => AstNodeList.new p l)

/-- support::token: the first child token of the requested kind, via
`children_with_tokens().filter_map(into_token).find(kind == k)`. -/
def support.token (parent : SyntaxNode) (kind : SyntaxKind) : Option SyntaxToken :=
  (parent.children_with_tokens.filterMap SyntaxElement.into_token).find?
    (fun it => decide (it.kind = kind))

/-- Modelled from the spec: FormatElement (formatter crate root, not under src/) is a tree of
printing primitives: literal token, forced space, empty element, ordered join. -/
inductive FormatElement : Type where
  | empty : FormatElement
  | space : FormatElement
  | token (text : String) : FormatElement
  | join (elements : List FormatElement) : FormatElement

/-- Modelled from the spec: `empty_element()` builds the no-op primitive. -/
def empty_element : FormatElement := FormatElement.empty

/-- Modelled from the spec: `space_token()` builds the forced-space primitive. -/
def space_token : FormatElement := FormatElement.space

/-- Modelled from the spec: `token(text)` builds a literal token element. -/
def token (text : String) : FormatElement := FormatElement.token text

/-- The entries an element contributes when joined into a sequence: a join is spliced, any
other element stands alone. -/
def FormatElement.entries : FormatElement → List FormatElement
  | FormatElement.join inner => inner
  | other => [other]

/-- Modelled from the spec: `format_elements![...]`, the ordered-join combinator, concatenates
an ordered sequence of previously built elements into one element (nested joins are spliced so
that concatenation is flat, matching the spec's expected output sequences). -/
def format_elements (elements : List FormatElement) : FormatElement :=
  FormatElement.join (elements.flatMap FormatElement.entries)

/-- Modelled from the spec: the Formatter context, reduced to the two dispatch operations the
continue-statement routine uses: `format_node` (recursive per-kind dispatch, here applied to
the label token exactly as in the source) and `format_token`. Both may fail, yielding none. -/
structure Formatter where
  format_node : SyntaxToken → Option FormatElement
  format_token : SyntaxToken → Option FormatElement

/-- ContinueStmt's can_cast predicate: exactly the CONTINUE_STMT kind. -/
def continueStmtKind (k : SyntaxKind) : Bool := decide (k = SyntaxKind.CONTINUE_STMT)

/-- The typed continue-statement node. -/
abbrev ContinueStmt := TypedNode continueStmtKind

/-- Modelled from the spec: the generated accessor ContinueStmt::ident_token
(`ast/generated/nodes.rs` is not under src/): the optional label token, via the token lookup
helper. -/
def ContinueStmt.ident_token (self : ContinueStmt) : Option SyntaxToken :=
  support.token self.syn SyntaxKind.IDENT

/-- Modelled from the spec: the generated accessor ContinueStmt::continue_token: the keyword
token introducing the statement, via the token lookup helper. -/
def ContinueStmt.continue_token (self : ContinueStmt) : Option SyntaxToken :=
  support.token self.syn SyntaxKind.CONTINUE_KW

/-- ToFormatElement for ContinueStmt: builds the label part first (a forced space and the
formatted label when the label is present, the empty element otherwise; a failed dispatch on a
present label aborts the whole node), then requires the continue keyword token and its
formatting, and joins keyword, label part and the ";" literal. Rust's `?` early returns are
explicit none propagation. -/
def ContinueStmt.to_format_element (self : ContinueStmt) (formatter : Formatter) :
    Option FormatElement :=
  let identPart : Option FormatElement :=
    match self.ident_token with
    | some ident_token =>
      (formatter.format_node ident_token).map (fun fi => format_elements [space_token, fi])
    | none => some empty_element
  match identPart with
  | none => none
  | some ident =>
    match self.continue_token with
    | none => none
    | some ct =>
      match formatter.format_token ct with
      | none => none
      | some continue_token => some (format_elements [continue_token, ident, token (";")])

/-- The kind predicate of a typed token wrapper expecting keyword tokens. -/
def keywordTokenKind (k : SyntaxKind) : Bool := decide (k = SyntaxKind.KEYWORD)

/-- Concrete input: the `continue` keyword token of `continue outer;`. -/
def contTok : SyntaxToken := ⟨SyntaxKind.CONTINUE_KW, "continue", ⟨0, 8⟩⟩

/-- Concrete input: the label token `outer`. -/
def labelTok : SyntaxToken := ⟨SyntaxKind.IDENT, "outer", ⟨9, 14⟩⟩

/-- Concrete input: the terminating semicolon token. -/
def semiTok : SyntaxToken := ⟨SyntaxKind.SEMICOLON, ";", ⟨14, 15⟩⟩

/-- Concrete input: the CST node for `continue outer;`. -/
def contStmtNode : SyntaxNode :=
  SyntaxNode.mk SyntaxKind.CONTINUE_STMT
    [Sum.inr contTok, Sum.inr labelTok, Sum.inr semiTok] "continue outer;" ⟨0, 15⟩

/-- Concrete input: the typed view of `continue outer;`. -/
def theContinueStmt : ContinueStmt := ⟨contStmtNode⟩

/-- Concrete input: a CST node for a continue statement whose keyword token is missing
(error-recovered input), holding only the semicolon. -/
def headlessContinueNode : SyntaxNode :=
  SyntaxNode.mk SyntaxKind.CONTINUE_STMT [Sum.inr semiTok] ";" ⟨0, 1⟩

/-- Concrete input: a dispatch context that renders every node/token as its literal text. -/
def literalFormatter : Formatter :=
  ⟨fun t => some (token t.text), fun t => some (token t.text)⟩

/-- Concrete input: an empty list-grouping node. -/
def emptyListNode : SyntaxNode := SyntaxNode.mk SyntaxKind.LIST [] "" ⟨0, 0⟩

/-- Concrete input: an error node sitting inside a list whose typed element kind it fails. -/
def strayErrorNode : SyntaxNode := SyntaxNode.mk SyntaxKind.ERROR [] "?" ⟨0, 1⟩

/-- Concrete input: a list-grouping node holding one entry that the typed element kind of the
list rejects. -/
def mixedListNode : SyntaxNode :=
  SyntaxNode.mk SyntaxKind.LIST [Sum.inl strayErrorNode] "?" ⟨0, 1⟩

theorem iterFindMap_rest_length {α β : Type} (f : α → Option β) :
    ∀ (l : List α) (r : β × List α), iterFindMap f l = some r → r.2.length < l.length := by
  intro l
  induction l with
  | nil => intro r hr; simp [iterFindMap] at hr
  | cons x xs ih =>
    intro r hr
    simp only [iterFindMap] at hr
    cases hx : f x with
    | some v =>
      rw [hx] at hr
      cases hr
      simp
    | none =>
      rw [hx] at hr
      exact Nat.lt_trans (ih r hr) (by simp)

theorem iterFindMap_none_filterMap {α β : Type} (f : α → Option β) :
    ∀ (l : List α), iterFindMap f l = none → l.filterMap f = [] := by
  intro l
  induction l with
  | nil => intro _; rfl
  | cons x xs ih =>
    intro h
    simp only [iterFindMap] at h
    cases hx : f x with
    | some v => rw [hx] at h; cases h
    | none => rw [hx] at h; simp [List.filterMap_cons, hx, ih h]

theorem iterFindMap_some_filterMap {α β : Type} (f : α → Option β) :
    ∀ (l : List α) (r : β × List α), iterFindMap f l = some r →
      l.filterMap f = r.1 :: r.2.filterMap f := by
  intro l
  induction l with
  | nil => intro r h; simp [iterFindMap] at h
  | cons x xs ih =>
    intro r h
    simp only [iterFindMap] at h
    cases hx : f x with
    | some v =>
      rw [hx] at h
      cases h
      simp [List.filterMap_cons, hx]
    | none =>
      rw [hx] at h
      simp [List.filterMap_cons, hx, ih r h]

theorem iterExhaust_eq_filterMap {α β : Type} (f : α → Option β) (l : List α) :
    iterExhaust f l = l.filterMap f := by
  unfold iterExhaust
  split
  · next h => exact (iterFindMap_none_filterMap f l h).symm
  · next r h =>
    rw [iterExhaust_eq_filterMap f r.2]
    exact (iterFindMap_some_filterMap f l r h).symm
termination_by l.length
decreasing_by
  rename_i r
  exact iterFindMap_rest_length f l _ r

theorem exhaust_new_from_children (p : SyntaxKind → Bool) (l : List SyntaxNode) :
    (AstChildren.new_from_children p l).exhaust = l.filterMap (AstNode.cast p) := by
  unfold AstChildren.exhaust AstChildren.new_from_children
  exact iterExhaust_eq_filterMap (AstNode.cast p) l

theorem cast_of_can_cast (p : SyntaxKind → Bool) (s : SyntaxNode) (hp : p s.kind = true) :
    AstNode.cast p s = some ⟨s⟩ := by
  simp [AstNode.cast, hp]

theorem cast_of_not_can_cast (p : SyntaxKind → Bool) (s : SyntaxNode) (hp : p s.kind = false) :
    AstNode.cast p s = none := by
  simp [AstNode.cast, hp]

theorem filterMap_cast_eq_filter (p : SyntaxKind → Bool) (l : List SyntaxNode) :
    l.filterMap (AstNode.cast p) =
      (l.filter (fun c => p c.kind)).map (fun c => (⟨c⟩ : TypedNode p)) := by
  induction l with
  | nil => rfl
  | cons x xs ih =>
    cases hx : p x.kind with
    | true =>
      simp [List.filterMap_cons, List.filter_cons, cast_of_can_cast p x hx, hx, ih]
    | false =>
      simp [List.filterMap_cons, List.filter_cons, cast_of_not_can_cast p x hx, hx, ih]

theorem findSome?_cast_eq_find? (p : SyntaxKind → Bool) (l : List SyntaxNode) :
    List.findSome? (AstNode.cast p) l =
      (l.find? (fun c => p c.kind)).map (fun c => (⟨c⟩ : TypedNode p)) := by
  induction l with
  | nil => rfl
  | cons x xs ih =>
    cases hx : p x.kind with
    | true =>
      simp [List.findSome?_cons, List.find?_cons, cast_of_can_cast p x hx, hx]
    | false =>
      simp [List.findSome?_cons, List.find?_cons, cast_of_not_can_cast p x hx, hx, ih]

theorem find?_isSome_eq_any {α : Type} (q : α → Bool) (l : List α) :
    (l.find? q).isSome = l.any q := by
  induction l with
  | nil => rfl
  | cons x xs ih =>
    cases hx : q x <;> simp [List.find?_cons, List.any_cons, hx, ih]

theorem length_filterMap_lt_of_none {α β : Type} (f : α → Option β) (l : List α)
    (x : α) (hx : x ∈ l) (hfx : f x = none) :
    (l.filterMap f).length < l.length := by
  induction l with
  | nil => cases hx
  | cons y ys ih =>
    cases hx with
    | head =>
      simp only [List.filterMap_cons, hfx, List.length_cons]
      exact Nat.lt_succ_of_le (List.length_filterMap_le f ys)
    | tail _ hmem =>
      cases hy : f y with
      | some v =>
        simp only [List.filterMap_cons, hy, List.length_cons]
        exact Nat.succ_lt_succ (ih hmem)
      | none =>
        simp only [List.filterMap_cons, hy, List.length_cons]
        exact Nat.lt_trans (ih hmem) (Nat.lt_succ_self _)

/-- Claim C1: for every typed node/token type (modelled by its kind predicate) and every CST
node/token, cast returns present iff can_cast holds on the argument's kind (and cast is a
total function, so it never panics); in particular casting an IDENTIFIER token to a wrapper
expecting KEYWORD returns absent. -/
theorem c1_cast_iff_can_cast :
    (∀ (p : SyntaxKind → Bool) (s : SyntaxNode),
        (AstNode.cast p s).isSome = AstNode.can_cast p s.kind) ∧
    (∀ (q : SyntaxKind → Bool) (t : SyntaxToken),
        (AstToken.cast q t).isSome = AstToken.can_cast q t.kind) ∧
    (∀ (t : SyntaxToken), t.kind = SyntaxKind.IDENTIFIER →
        AstToken.cast keywordTokenKind t = none) := by
  refine ⟨?_, ?_, ?_⟩
  · intro p s
    cases hp : p s.kind <;> simp [AstNode.cast, AstNode.can_cast, hp]
  · intro q t
    cases hq : q t.kind <;> simp [AstToken.cast, AstToken.can_cast, hq]
  · intro t ht
    simp [AstToken.cast, keywordTokenKind, ht, SyntaxKind.IDENTIFIER, SyntaxKind.KEYWORD]

theorem c1_cast_iff_can_cast_witness :
    AstToken.cast keywordTokenKind ⟨SyntaxKind.IDENTIFIER, "x", ⟨0, 1⟩⟩ = none :=
  c1_cast_iff_can_cast.2.2 ⟨SyntaxKind.IDENTIFIER, "x", ⟨0, 1⟩⟩ rfl

/-- Claim C4: the list helper returns a present AstNodeList exactly when the parent has a
LIST-kind child (presence does not depend on the list having elements), and it aborts — the
`expect` panic, modelled as none, the sole aborting operation of the projection layer — exactly
when no LIST-kind child exists. -/
theorem c4_list_present_iff_list_child (p : SyntaxKind → Bool) (parent : SyntaxNode) :
    (support.list p parent).isSome =
      parent.children.any (fun c => decide (c.kind = SyntaxKind.LIST)) := by
  unfold support.list
  rw [← find?_isSome_eq_any]
  cases parent.children.find? (fun e => decide (e.kind = SyntaxKind.LIST)) <;> rfl

/-- Claim C5: a successfully cast typed node's text/range are exactly the wrapped CST node's
trimmed text/trimmed range, and a successfully cast typed token's text is exactly the wrapped
CST token's text (tokens carry no attached trivia in this tree, so that is the trimmed text). -/
theorem c5_zero_copy_identity (p q : SyntaxKind → Bool) (s : SyntaxNode) (tk : SyntaxToken)
    (t : TypedNode p) (tt : TypedToken q) :
    (AstNode.cast p s = some t → t.text = s.trimmed_text ∧ t.range = s.trimmed_range) ∧
    (AstToken.cast q tk = some tt → tt.text = tk.text) := by
  constructor
  · intro h
    unfold AstNode.cast at h
    split at h
    · cases h
      exact ⟨rfl, rfl⟩
    · cases h
  · intro h
    unfold AstToken.cast at h
    split at h
    · cases h
      rfl
    · cases h

theorem c5_zero_copy_identity_witness :
    TypedNode.text (p := continueStmtKind) ⟨contStmtNode⟩ = contStmtNode.trimmed_text ∧
    TypedNode.range (p := continueStmtKind) ⟨contStmtNode⟩ = contStmtNode.trimmed_range ∧
    TypedToken.text (p := keywordTokenKind) ⟨⟨SyntaxKind.KEYWORD, "new", ⟨0, 3⟩⟩⟩ =
      SyntaxToken.text ⟨SyntaxKind.KEYWORD, "new", ⟨0, 3⟩⟩ := by
  have h := c5_zero_copy_identity continueStmtKind keywordTokenKind contStmtNode
    ⟨SyntaxKind.KEYWORD, "new", ⟨0, 3⟩⟩ ⟨contStmtNode⟩ ⟨⟨SyntaxKind.KEYWORD, "new", ⟨0, 3⟩⟩⟩
  exact ⟨(h.1 rfl).1, (h.1 rfl).2, h.2 rfl⟩

/-- Claim C6: exhausting an AstChildren iterator over a parent yields exactly the parent's
direct child nodes whose cast succeeds (equivalently, whose kind satisfies can_cast), in
source order, each exactly once; the iteration is a total function, so it terminates. -/
theorem c6_children_iteration (p : SyntaxKind → Bool) (parent : SyntaxNode) :
    (support.children p parent).exhaust = parent.children.filterMap (AstNode.cast p) ∧
    (support.children p parent).exhaust =
      (parent.children.filter (fun c => AstNode.can_cast p c.kind)).map
        (fun c => (⟨c⟩ : TypedNode p)) := by
  have h1 : (support.children p parent).exhaust = parent.children.filterMap (AstNode.cast p) :=
    iterExhaust_eq_filterMap (AstNode.cast p) parent.children
  refine ⟨h1, ?_⟩
  rw [h1]
  exact filterMap_cast_eq_filter p parent.children

/-- Claim C7: the child lookup helper returns the first direct child node, in source order,
accepted by the cast (the first whose kind satisfies can_cast, wrapped), and absent when no
such child exists; it is a total function, so it never fails. -/
theorem c7_child_lookup_first (p : SyntaxKind → Bool) (parent : SyntaxNode) :
    support.child p parent =
      (parent.children.find? (fun c => AstNode.can_cast p c.kind)).map
        (fun c => (⟨c⟩ : TypedNode p)) := by
  unfold support.child
  exact findSome?_cast_eq_find? p parent.children

theorem format_elements_splice (a d : FormatElement) (inner : List FormatElement) :
    format_elements [a, format_elements inner, d] =
      format_elements ([a] ++ inner ++ [d]) := by
  simp [format_elements, FormatElement.entries, List.flatMap_cons, List.flatMap_nil,
    List.flatMap_append, List.append_assoc]

/-- Claim C2: converting a continue statement with all required pieces present emits, when the
label is present, the join of the formatted continue token, a forced space, the formatted
label and the literal ";", and, when the label is absent, the join of the formatted continue
token, the empty element and the literal ";" — the terminating punctuation in both cases. -/
theorem c2_continue_statement_output (s : ContinueStmt) (f : Formatter) :
    (∀ (i c : SyntaxToken) (fi fc : FormatElement),
        s.ident_token = some i → f.format_node i = some fi →
        s.continue_token = some c → f.format_token c = some fc →
        s.to_format_element f =
          some (format_elements [fc, space_token, fi, token (";")])) ∧
    (∀ (c : SyntaxToken) (fc : FormatElement),
        s.ident_token = none → s.continue_token = some c → f.format_token c = some fc →
        s.to_format_element f =
          some (format_elements [fc, empty_element, token (";")])) := by
  constructor
  · intro i c fi fc hi hn hc hf
    unfold ContinueStmt.to_format_element
    simp only [hi, hn, hc, hf, Option.map_some']
    rw [format_elements_splice fc (token (";")) [space_token, fi]]
    rfl
  · intro c fc hi hc hf
    unfold ContinueStmt.to_format_element
    simp only [hi, hc, hf]

theorem c2_continue_statement_output_witness :
    ContinueStmt.to_format_element theContinueStmt literalFormatter =
      some (format_elements [token ("continue"), space_token, token ("outer"), token (";")]) :=
  (c2_continue_statement_output theContinueStmt literalFormatter).1 labelTok contTok
    (token ("outer")) (token ("continue")) rfl rfl rfl rfl

/-- Claim C3: a continue statement whose required continue keyword token is missing from the
CST converts to absent as a whole — no partial FormatElement sequence is produced. -/
theorem c3_missing_keyword_absent (s : ContinueStmt) (f : Formatter)
    (h : s.continue_token = none) : s.to_format_element f = none := by
  unfold ContinueStmt.to_format_element
  cases hi : s.ident_token with
  | none => simp only [h]
  | some i =>
    cases hn : f.format_node i with
    | none => simp [hn]
    | some fi => simp [hn, h]

theorem c3_missing_keyword_absent_witness :
    ContinueStmt.to_format_element ⟨headlessContinueNode⟩ literalFormatter = none :=
  c3_missing_keyword_absent ⟨headlessContinueNode⟩ literalFormatter rfl

/-- Claim C9: conversion to FormatElement is referentially transparent: two runs on the same
typed node (same wrapped CST node) under context states with identical dispatch behavior
produce structurally identical FormatElement trees. -/
theorem c9_referential_transparency (s1 s2 : ContinueStmt) (f1 f2 : Formatter)
    (hs : s1.syn = s2.syn)
    (hn : ∀ t, f1.format_node t = f2.format_node t)
    (ht : ∀ t, f1.format_token t = f2.format_token t) :
    s1.to_format_element f1 = s2.to_format_element f2 := by
  obtain ⟨n1⟩ := s1
  obtain ⟨n2⟩ := s2
  cases hs
  obtain ⟨fn1, ft1⟩ := f1
  obtain ⟨fn2, ft2⟩ := f2
  have hfn : fn1 = fn2 := funext hn
  have hft : ft1 = ft2 := funext ht
  cases hfn
  cases hft
  rfl

theorem c9_referential_transparency_witness :
    ContinueStmt.to_format_element theContinueStmt literalFormatter =
      ContinueStmt.to_format_element theContinueStmt
        ⟨fun t => some (token t.text), fun t => some (token t.text)⟩ :=
  c9_referential_transparency theContinueStmt theContinueStmt literalFormatter
    ⟨fun t => some (token t.text), fun t => some (token t.text)⟩ rfl
    (fun _ => rfl) (fun _ => rfl)

/-- Claim C8: an AstNodeList wrapping a list node with zero entries has len 0, absent first
and last elements, and is_empty true. -/
theorem c8_empty_list_behavior (p : SyntaxKind → Bool) (L : AstNodeList p)
    (h : L.inner.node.children = []) :
    L.len = 0 ∧ L.first = none ∧ L.last = none ∧ L.is_empty = true := by
  refine ⟨?_, ?_, ?_, ?_⟩
  · simp [AstNodeList.len, SyntaxList.len, h]
  · simp [AstNodeList.first, AstNodeList.iter, SyntaxList.iter, AstChildren.new_from_children,
      AstChildren.next, h, iterFindMap]
  · simp [AstNodeList.last, AstChildren.last, AstNodeList.iter, SyntaxList.iter,
      AstChildren.new_from_children, AstChildren.exhaust, h, iterExhaust_eq_filterMap]
  · simp [AstNodeList.is_empty, SyntaxList.is_empty, h]

theorem c8_empty_list_behavior_witness :
    (AstNodeList.new continueStmtKind emptyListNode).len = 0 ∧
    (AstNodeList.new continueStmtKind emptyListNode).first = none ∧
    (AstNodeList.new continueStmtKind emptyListNode).last = none ∧
    (AstNodeList.new continueStmtKind emptyListNode).is_empty = true :=
  c8_empty_list_behavior continueStmtKind (AstNodeList.new continueStmtKind emptyListNode) rfl

/-- Claim C10: len counts every entry of the underlying list node without filtering by the
element type, while exhausting iter yields only the cast-able entries; hence on a list with at
least one entry the element type rejects, iter yields strictly fewer elements than len. -/
theorem c10_len_exceeds_iter (p : SyntaxKind → Bool) (L : AstNodeList p)
    (h : ∃ c ∈ L.inner.node.children, p c.kind = false) :
    L.len = L.inner.node.children.length ∧
    L.iter.exhaust = L.inner.node.children.filterMap (AstNode.cast p) ∧
    L.iter.exhaust.length < L.len := by
  obtain ⟨c, hmem, hc⟩ := h
  have hexh : L.iter.exhaust = L.inner.node.children.filterMap (AstNode.cast p) :=
    iterExhaust_eq_filterMap (AstNode.cast p) L.inner.node.children
  refine ⟨rfl, hexh, ?_⟩
  rw [hexh]
  exact length_filterMap_lt_of_none (AstNode.cast p) L.inner.node.children c hmem
    (cast_of_not_can_cast p c hc)

theorem c10_len_exceeds_iter_witness :
    (AstNodeList.new continueStmtKind mixedListNode).iter.exhaust.length <
      (AstNodeList.new continueStmtKind mixedListNode).len ∧
    (AstNodeList.new continueStmtKind mixedListNode).len = 1 ∧
    (AstNodeList.new continueStmtKind mixedListNode).first = none := by
  refine ⟨?_, rfl, rfl⟩
  exact (c10_len_exceeds_iter continueStmtKind (AstNodeList.new continueStmtKind mixedListNode)
    ⟨strayErrorNode, by simp [AstNodeList.new, SyntaxList.new, mixedListNode,
      SyntaxNode.children, SyntaxNode.children_with_tokens], rfl⟩).2.2
